import Mathlib

set_option maxHeartbeats 1000000

/-!
A shallow embedding of the AnonTokyo event interpreter
(src/type.ts, src/utils.ts, src/compile.ts, src/interpreter.ts).

Conventions of the embedding:
* JS values are modelled by `JSVal`; the programs appearing in the claims only
  use integer-valued numbers, so `num` carries an `Int`.
* Host expressions (`Expression = (scope) => any` in type.ts) are modelled as
  pure state transformers `Scope → Scope × JSVal`; a JS expression mutates the
  scope objects and yields a value.
* `async`/`await` is semantically transparent here (single-threaded cooperative
  execution, promises immediately awaited by the stepper), so the async and the
  sync variants of a step collapse to the same function, exactly as the source's
  two branches only differ by an `await`.
* TS object identity is modelled by an arena: every flow node created by
  `flowAnalyzePass` is appended to `arena : List FNData` and referenced by its
  index.  The mutable `id` field (initialised to `-1` and assigned during the
  labelling walk) is modelled by a side map `ids : List (Nat × Int)`; a
  reference that was never labelled keeps id `-1`, as in the source.
* Recursion over the statement tree / node graph uses an explicit fuel
  parameter; exhausted fuel yields the distinguished error `fuelOut`, which is
  distinct from every error the source can produce.
-/

/-- JS runtime values (numbers restricted to the integers used by the claims'
programs).  `exitSig` models the `EXIT_SIGNAL` symbol of interpreter.ts. -/
inductive JSVal where
  | undef
  | null
  | bool (b : Bool)
  | num (n : Int)
  | str (s : String)
  | exitSig
deriving DecidableEq

/-- A JS variable mapping (`Record<string, any>`); later bindings shadow. -/
abbrev VMap := List (String × JSVal)

/-- Read a property; a missing key is `undefined` in JS. -/
def vget (m : VMap) (k : String) : JSVal := ((List.lookup k m).getD .undef)

/-- Assign a property. -/
def vset (m : VMap) (k : String) (v : JSVal) : VMap := (k, v) :: m

/-- The run-time scope of one invocation (type.ts `Scope`); the source field
`local` is spelt `locals` here because `local` is a Lean keyword. -/
structure Scope where
  args : VMap
  locals : VMap
  env : VMap
deriving DecidableEq

/-- type.ts `Expression`: an opaque host callable over the scope. -/
abbrev Expr := Scope → Scope × JSVal

/-- type.ts `Literal`. -/
inductive Literal where
  | str (s : String)
  | num (n : Int)
  | bool (b : Bool)
  | nullL
deriving DecidableEq

/-- type.ts `Value = Literal | Expression`. -/
inductive Value where
  | lit (l : Literal)
  | expr (e : Expr)

/-- lodash `isFunction` applied to a `Value`. -/
def Value.isFunction : Value → Bool
  | .lit _ => false
  | .expr _ => true

/-- Injection of a literal into the runtime values. -/
def Literal.toJS : Literal → JSVal
  | .str s => .str s
  | .num n => .num n
  | .bool b => .bool b
  | .nullL => .null

/-- JS truthiness (`if (v)`): `undefined`, `null`, `false`, `0` and `""` are
falsy. -/
def jsTruthy : JSVal → Bool
  | .undef => false
  | .null => false
  | .bool b => b
  | .num n => !(n == 0)
  | .str s => !(s == "")
  | .exitSig => true

/-- JS strict equality `===` on the embedded values (no coercion; integer
numbers compare by value). -/
def jsStrictEq (a b : JSVal) : Bool := a == b

/-- type.ts `Statement`.  `functionDeclare` models a statement object whose
`type` tag is one of the `StatementType` enum members (`Block`,
`FunctionDeclare`) that the `Statement` union does not cover: `flowAnalyzePass`
sends those to its `default: throw "unknown statement type"` case. -/
inductive Statement where
  | expression (e : Expr) (isAsync : Bool)
  | call (functionName : String) (parameters : List (String × Value))
      (builtIn : Bool) (isAsync : Bool)
  | ret (value : Option Value)
  | ifS (branches : List (Expr × List Statement))
      (otherwise : Option (List Statement))
  | switchS (pattern : Expr) (branches : List (Expr × List Statement))
      (otherwise : Option (List Statement))
  | loop (skipInitialCheck : Bool) (initializerE : Option Expr)
      (condition : Option Expr) (iteratorE : Option Expr)
      (label : Option String) (body : List Statement)
  | breakS (label : Option String)
  | continueS
  | exitS
  | functionDeclare

/-- type.ts `FlowNode`, one arena cell per created node object.  `Nat` fields
are arena references (object identity); the mutable `id` lives in a side map.
Every variant stores its `mergable` flag exactly as the source objects do. -/
inductive FNData where
  | normal (statement : Statement) (next : Nat) (mergable : Bool)
  | externCall (statement : Statement) (next : Nat) (mergable : Bool)
  | retN (statement : Statement) (mergable : Bool)
  | ifN (statement : Statement) (branches : List (Expr × Nat))
      (otherwise : Option Nat) (next : Nat) (mergable : Bool)
  | switchN (statement : Statement) (branches : List (Expr × Nat))
      (otherwise : Option Nat) (next : Nat) (mergable : Bool)
  | loopN (statement : Statement) (body : Nat) (next : Nat) (mergable : Bool)
  | loopInit (main : Nat) (mergable : Bool)
  | jump (statement : Statement) (next : Nat) (mergable : Bool)
  | exitN (statement : Statement) (mergable : Bool)
  | block (nodes : List Nat) (next : Nat) (mergable : Bool)

/-- The `mergable` field of a node. -/
def FNData.mergableOf : FNData → Bool
  | .normal _ _ m => m
  | .externCall _ _ m => m
  | .retN _ m => m
  | .ifN _ _ _ _ m => m
  | .switchN _ _ _ _ m => m
  | .loopN _ _ _ m => m
  | .loopInit _ m => m
  | .jump _ _ m => m
  | .exitN _ m => m
  | .block _ _ m => m

/-- The `type` tag of a node, as a plain enum for decidable statements. -/
inductive FNKind where
  | normal | externCall | retK | ifK | switchK | loopK | loopInitK | jumpK
  | exitK | blockK
deriving DecidableEq

/-- Project the tag. -/
def FNData.kindOf : FNData → FNKind
  | .normal .. => .normal
  | .externCall .. => .externCall
  | .retN .. => .retK
  | .ifN .. => .ifK
  | .switchN .. => .switchK
  | .loopN .. => .loopK
  | .loopInit .. => .loopInitK
  | .jump .. => .jumpK
  | .exitN .. => .exitK
  | .block .. => .blockK

/-- The `next` reference of a node, when the variant has one. -/
def FNData.nextRefOf : FNData → Option Nat
  | .normal _ n _ => some n
  | .externCall _ n _ => some n
  | .ifN _ _ _ n _ => some n
  | .switchN _ _ _ n _ => some n
  | .loopN _ _ n _ => some n
  | .jump _ n _ => some n
  | .block _ n _ => some n
  | _ => none

/-- Compile-time failures of the two passes.  The constructors mirror the
`throw` sites of compile.ts; `fuelOut` is this embedding's fuel sentinel and
corresponds to no source behaviour. -/
inductive CErr where
  | dupLabel (l : String)
  | undefLabel
  | unexceptedBreak
  | unexceptedContinue
  | unknownStatement
  | emptyBlockLabeling
  | missingBuiltIn (name : String)
  | jitExternCall
  | jitBadLabel (l : String)
  | jitBadCondition
  | notImplement
  | internal (s : String)
  | fuelOut
deriving DecidableEq

/-- Mutable state of `flowAnalyzePass`: the arena of created node objects plus
the `labelMap` and `breakableNodeStack` of compile.ts (most recent first). -/
structure FState where
  arena : List FNData
  labelMap : List (String × Nat)
  breakableNodeStack : List Nat

/-- The flow-analysis monad. -/
abbrev FlowM := StateT FState (Except CErr)

/-- Create a node object (TS object literal allocation). -/
def alloc (d : FNData) : FlowM Nat := fun s =>
  .ok (s.arena.length, { s with arena := s.arena ++ [d] })

/-- Dereference. -/
def getNode (r : Nat) : FlowM FNData := fun s =>
  match s.arena.get? r with
  | some d => .ok (d, s)
  | none => .error (.internal "dangling ref")

/-- `node.mergable` for every node of a list (used for `nodes.every(...)`). -/
def allMergable (refs : List Nat) : FlowM Bool := fun s =>
  .ok (refs.all (fun r => ((s.arena.get? r).map FNData.mergableOf).getD false), s)

/-- Overwrite one arena cell (in-place TS object mutation). -/
def arenaModify (a : List FNData) (r : Nat) (f : FNData → FNData) :
    List FNData :=
  match a.get? r with
  | some d => a.set r (f d)
  | none => a

/-- TS mutation `loopNode.body = b` (only a Loop object is ever the target). -/
def updateLoopBody (r : Nat) (b : Nat) : FlowM Unit := fun s =>
  .ok ((), { s with arena := arenaModify s.arena r (fun d =>
    match d with
    | .loopN st _ next m => .loopN st b next m
    | other => other) })

/-- TS mutation `loopNode.mergable = m`. -/
def updateLoopMergable (r : Nat) (m : Bool) : FlowM Unit := fun s =>
  .ok ((), { s with arena := arenaModify s.arena r (fun d =>
    match d with
    | .loopN st b next _ => .loopN st b next m
    | other => other) })

/-- TS mutation `root.nodes.push(implicitReturnNode)`. -/
def pushBlockChild (r : Nat) (c : Nat) : FlowM Unit := fun s =>
  .ok ((), { s with arena := arenaModify s.arena r (fun d =>
    match d with
    | .block nodes next m => .block (nodes ++ [c]) next m
    | other => other) })

/-- Throw a compile error. -/
def throwC (e : CErr) : FlowM α := fun _ => .error e

/-- Register a loop label, failing on a duplicate
(`if (labelMap.has(...)) throw new Error("duplicate label ...")`). -/
def registerLabel (l : String) (loopRef : Nat) : FlowM Unit := fun s =>
  if (List.lookup l s.labelMap).isSome then .error (.dupLabel l)
  else .ok ((), { s with labelMap := (l, loopRef) :: s.labelMap })

/-- `labelMap.delete(label)`. -/
def deleteLabel (l : String) : FlowM Unit := fun s =>
  .ok ((), { s with labelMap := s.labelMap.eraseP (fun p => p.1 == l) })

/-- `labelMap.get(label)`. -/
def lookupLabel (l : String) : FlowM (Option Nat) := fun s =>
  .ok (List.lookup l s.labelMap, s)

/-- `breakableNodeStack.push(loopNode)`. -/
def pushBreakable (loopRef : Nat) : FlowM Unit := fun s =>
  .ok ((), { s with breakableNodeStack := loopRef :: s.breakableNodeStack })

/-- `breakableNodeStack.pop()`. -/
def popBreakable : FlowM Unit := fun s =>
  .ok ((), { s with breakableNodeStack := s.breakableNodeStack.tail })

/-- `breakableNodeStack.at(-1)` (the innermost open loop). -/
def peekBreakable : FlowM (Option Nat) := fun s =>
  .ok (s.breakableNodeStack.head?, s)

/-- The five mutually recursive lowering functions of compile.ts, bundled at
one fuel level.  (The recursion is hand-rolled with `Nat.rec` below so that
concrete runs reduce definitionally.) -/
structure FlowFns where
  stmt : Statement → Nat → FlowM Nat
  chain : List Statement → Nat → FlowM (List Nat)
  blockFn : List Statement → Nat → FlowM Nat
  ifBranches : List (Expr × List Statement) → Nat → FlowM (List (Expr × Nat))
  switchBranches :
    List (Expr × List Statement) → Nat → FlowM (List (Expr × Nat) × Nat)

/-- compile.ts `toFlowNode` (the big `switch (statement.type)`); `ih` holds
the recursive calls. -/
def toFlowNodeBody (ih : FlowFns) (stmt : Statement) (successor : Nat) :
    FlowM Nat :=
  match stmt with
  | .expression _ _ => alloc (.normal stmt successor true)
  | .call _ _ builtIn _ =>
    if builtIn then alloc (.normal stmt successor true)
    else alloc (.externCall stmt successor false)
  | .ret _ => alloc (.retN stmt true)
  | .ifS branches otherwise => do
    let bs ← ih.ifBranches branches successor
    let ow ← match otherwise with
      | some o => do pure (some (← ih.blockFn o successor))
      | none => pure none
    let bm ← allMergable (bs.map (·.2))
    let om ← match ow with
      | some r => do pure (((← getNode r)).mergableOf)
      | none => pure true
    alloc (.ifN stmt bs ow successor (bm && om))
  | .switchS _ branches otherwise => do
    let ow ← match otherwise with
      | some o => do pure (some (← ih.blockFn o successor))
      | none => pure none
    let last0 := match ow with
      | some r => r
      | none => successor
    let bsLast ← ih.switchBranches branches last0
    let bs := bsLast.1
    let bm ← allMergable (bs.map (·.2))
    let om ← match ow with
      | some r => do pure (((← getNode r)).mergableOf)
      | none => pure true
    alloc (.switchN stmt bs ow successor (bm && om))
  | .loop skip initializerE _ _ label body => do
    -- loop node created first with a placeholder body block
    let placeholder ← ih.blockFn [] successor
    let loopRef ← alloc (.loopN stmt placeholder successor false)
    (match label with
      | some l => registerLabel l loopRef
      | none => pure ())
    pushBreakable loopRef
    let bodyRef ← ih.blockFn body loopRef
    updateLoopBody loopRef bodyRef
    let bodyNode ← getNode bodyRef
    updateLoopMergable loopRef bodyNode.mergableOf
    (match label with
      | some l => deleteLabel l
      | none => pure ())
    popBreakable
    if initializerE.isSome then
      alloc (.loopInit loopRef true)
    else if skip then
      pure bodyRef   -- skipInitialCheck: the statement's node is the loop body
    else
      pure loopRef
  | .breakS label =>
    match label with
    | some l => do
      let tgt ← lookupLabel l
      match tgt with
      | none => throwC .undefLabel
      | some toRef => alloc (.jump stmt toRef true)
    | none => do
      let tgt ← peekBreakable
      match tgt with
      | none => throwC .unexceptedBreak
      | some toRef => alloc (.jump stmt toRef true)
  | .continueS => do
    let tgt ← peekBreakable
    match tgt with
    | none => throwC .unexceptedContinue
    | some toRef => alloc (.jump stmt toRef true)
  | .exitS => alloc (.exitN stmt true)
  | .functionDeclare => throwC .unknownStatement

/-- The right-to-left lowering loop of compile.ts `toBlockFlowNode`
(`statements.toReversed().map(...)`): the statements after `s` are lowered
first, and `s`'s successor is the node of the next statement (or the block's
successor for the last statement).  Returns the refs in source order. -/
def lowerChainBody (ih : FlowFns) (statements : List Statement)
    (successor : Nat) : FlowM (List Nat) :=
  match statements with
  | [] => pure []
  | s :: rest => do
    let restRefs ← ih.chain rest successor
    let mySucc := match restRefs.head? with
      | some r => r
      | none => successor
    let r ← ih.stmt s mySucc
    pure (r :: restRefs)

/-- compile.ts `toBlockFlowNode`. -/
def toBlockFlowNodeBody (ih : FlowFns) (statements : List Statement)
    (successor : Nat) : FlowM Nat := do
  let refs ← ih.chain statements successor
  let m ← allMergable refs
  alloc (.block refs successor m)

/-- The `statement.branches.map(...)` of the If case (in source order). -/
def lowerIfBranchesBody (ih : FlowFns) (bs : List (Expr × List Statement))
    (successor : Nat) : FlowM (List (Expr × Nat)) :=
  match bs with
  | [] => pure []
  | (c, body) :: rest => do
    let r ← ih.blockFn body successor
    let rest2 ← ih.ifBranches rest successor
    pure ((c, r) :: rest2)

/-- The Switch case's reversed, `last`-threading branch walk:
`last = toBlockFlowNode(body, last); node: toBlockFlowNode(body, last)`.
The second lowering of the same body (the branch node actually used) has the
first lowering as its successor.  Later source branches are processed first;
the returned pairs are in source order, alongside the final `last`. -/
def lowerSwitchBranchesBody (ih : FlowFns)
    (bs : List (Expr × List Statement)) (last0 : Nat) :
    FlowM (List (Expr × Nat) × Nat) :=
  match bs with
  | [] => pure ([], last0)
  | (c, body) :: rest => do
    let restPL ← ih.switchBranches rest last0
    let l ← ih.blockFn body restPL.2
    let n ← ih.blockFn body l
    pure (((c, n) :: restPL.1), l)

/-- Fuel-indexed tower of the lowering functions. -/
def flowCore : Nat → FlowFns :=
  Nat.rec
    { stmt := fun _ _ => throwC .fuelOut
      chain := fun _ _ => throwC .fuelOut
      blockFn := fun _ _ => throwC .fuelOut
      ifBranches := fun _ _ => throwC .fuelOut
      switchBranches := fun _ _ => throwC .fuelOut }
    (fun _ ih =>
      { stmt := toFlowNodeBody ih
        chain := lowerChainBody ih
        blockFn := toBlockFlowNodeBody ih
        ifBranches := lowerIfBranchesBody ih
        switchBranches := lowerSwitchBranchesBody ih })

/-- compile.ts `toFlowNode`, with fuel. -/
def toFlowNode (fuel : Nat) (stmt : Statement) (successor : Nat) : FlowM Nat :=
  (flowCore fuel).stmt stmt successor

/-- compile.ts `toBlockFlowNode`, with fuel. -/
def toBlockFlowNode (fuel : Nat) (statements : List Statement)
    (successor : Nat) : FlowM Nat :=
  (flowCore fuel).blockFn statements successor

/-- State of the labelling walk: the `id` assignments (most recent first) and
`flowNodeMap.length` (the next id `addNode` hands out). -/
structure LabSt where
  assign : List (Nat × Int)
  count : Nat

/-- The labelling monad (the arena is read-only during labelling). -/
abbrev LabM := StateT LabSt (Except CErr)

/-- The id of a node reference; `-1` when never assigned (the initial value of
the `id` field in the source). -/
def getIdA (assign : List (Nat × Int)) (r : Nat) : Int :=
  (List.lookup r assign).getD (-1)

/-- compile.ts `addNode`: `node.id = flowNodeMap.length; flowNodeMap.push(node)`. -/
def addNodeLab (r : Nat) : LabM Unit := fun st =>
  .ok ((), { assign := (r, (st.count : Int)) :: st.assign, count := st.count + 1 })

/-- Throw during labelling. -/
def throwL (e : CErr) : LabM α := fun _ => .error e

/-- The Block case's `node.id = node.nodes[0].id`. -/
def assignBlockId (r n0 : Nat) : LabM Unit := fun st =>
  .ok ((), { st with assign := (r, getIdA st.assign n0) :: st.assign })

/-- The two labelling functions at one fuel level. -/
structure LabFns where
  node : List FNData → Nat → LabM Unit
  list : List FNData → List Nat → LabM Unit

/-- compile.ts `labelingFlowNode`.  The Block case reads
`node.nodes[0].id` after labelling the children; on an empty block the source
dereferences `undefined` (a TypeError), modelled by `emptyBlockLabeling`. -/
def labelingBody (ih : LabFns) (arena : List FNData) (r : Nat) : LabM Unit :=
  match arena.get? r with
  | none => throwL (.internal "dangling ref")
  | some d =>
    match d with
    | .normal .. => addNodeLab r
    | .retN .. => addNodeLab r
    | .jump .. => addNodeLab r
    | .exitN .. => addNodeLab r
    | .externCall .. => addNodeLab r
    | .ifN _ bs ow _ _ => do
      addNodeLab r
      ih.list arena (bs.map (·.2))
      match ow with
      | some o => ih.node arena o
      | none => pure ()
    | .switchN _ bs ow _ _ => do
      addNodeLab r
      ih.list arena (bs.map (·.2))
      match ow with
      | some o => ih.node arena o
      | none => pure ()
    | .loopInit main _ => do
      addNodeLab r
      ih.node arena main
    | .loopN _ body _ _ => do
      addNodeLab r
      ih.node arena body
    | .block nodes _ _ => do
      ih.list arena nodes
      match nodes.head? with
      | none => throwL .emptyBlockLabeling
      | some n0 => assignBlockId r n0

/-- `node.nodes.forEach(labelingFlowNode)`. -/
def labelListBody (ih : LabFns) (arena : List FNData) (rs : List Nat) :
    LabM Unit :=
  match rs with
  | [] => pure ()
  | r :: rest => do
    ih.node arena r
    ih.list arena rest

/-- Fuel-indexed tower of the labelling walk. -/
def labCore : Nat → LabFns :=
  Nat.rec
    { node := fun _ _ => throwL .fuelOut, list := fun _ _ => throwL .fuelOut }
    (fun _ ih => { node := labelingBody ih, list := labelListBody ih })

/-- compile.ts `labelingFlowNode`, with fuel. -/
def labeling (fuel : Nat) (arena : List FNData) (r : Nat) : LabM Unit :=
  (labCore fuel).node arena r

/-- The output of flow analysis: the root block reference, the reference of the
implicit return node it appended, the final arena, and the id assignment. -/
structure FlowResult where
  root : Nat
  implicitRef : Nat
  arena : List FNData
  ids : List (Nat × Int)

/-- The construction stage of compile.ts `flowAnalyzePass`: create the
implicit return node (`{ type: Return, statement: { type: Return } }`), lower
the program with it as successor, and push it as the root block's last child
(`root.nodes.push(implicitReturnNode)`).  Returns the references of the
implicit node and of the root block. -/
def buildFlow (fuel : Nat) (program : List Statement) : FlowM (Nat × Nat) := do
  let ir ← alloc (.retN (.ret none) true)
  let root ← toBlockFlowNode fuel program ir
  pushBlockChild root ir
  pure (ir, root)

/-- compile.ts `flowAnalyzePass`: the construction stage followed by the
labelling walk (which only assigns ids and never changes the node data). -/
def flowAnalyzePass (fuel : Nat) (program : List Statement) :
    Except CErr FlowResult := do
  let (irRoot, s) ← (buildFlow fuel program).run
    { arena := [], labelMap := [], breakableNodeStack := [] }
  let ((), lab) ← (labeling fuel s.arena irRoot.2).run
    { assign := [], count := 0 }
  pure { root := irRoot.2, implicitRef := irRoot.1, arena := s.arena,
         ids := lab.assign }

/-- Tag of the node at a reference. -/
def FlowResult.kindAt (res : FlowResult) (r : Nat) : Option FNKind :=
  (res.arena.get? r).map FNData.kindOf

/-- `next` reference of the node at a reference. -/
def FlowResult.nextAt (res : FlowResult) (r : Nat) : Option Nat :=
  (res.arena.get? r).bind FNData.nextRefOf

/-- Children of a block node. -/
def FlowResult.nodesAt (res : FlowResult) (r : Nat) : Option (List Nat) :=
  (res.arena.get? r).bind (fun d =>
    match d with
    | .block nodes _ _ => some nodes
    | _ => none)

/-- Assigned id (post labelling) of a reference, `-1` if never labelled. -/
def FlowResult.idAt (res : FlowResult) (r : Nat) : Int := getIdA res.ids r

/-- Whether the node at `r` is a Jump produced by a break statement. -/
def FlowResult.isBreakJumpAt (res : FlowResult) (r : Nat) : Bool :=
  match res.arena.get? r with
  | some (.jump (.breakS _) _ _) => true
  | _ => false

/-- Whether the node at `r` is a Jump produced by a continue statement. -/
def FlowResult.isContinueJumpAt (res : FlowResult) (r : Nat) : Bool :=
  match res.arena.get? r with
  | some (.jump .continueS _ _) => true
  | _ => false

/-! ## Runtime model (type.ts `OP`, interpreter.ts) -/

/-- type.ts `OP`: the opcode a step returns. -/
inductive OP where
  | move (next : Int)
  | callOp (name : String) (parameters : List (String × JSVal)) (next : Int)
  | retOp (value : JSVal)
  | exitOp
deriving DecidableEq

/-- Run-time failures.  `fuelOut` is the embedding's fuel sentinel; the other
constructors model the JS exceptions the source can raise. -/
inductive RErr where
  | fuelOut
  | missingGlobal (name : String)
  | stepIdOutOfRange (id : Int)
  | nullStep (id : Int)
  | opUndefined
  | refErr (ident : String)
  | typeErr (s : String)
  | internal (s : String)
deriving DecidableEq

/-- type.ts `ExecutionNode`: one executable step.  The extra `Nat` is fuel for
steps that contain loops (fused steps). -/
abbrev Step := Nat → Scope → Except RErr (Scope × OP)

/-- A compiled program: interpreter.ts `AnonTokyoExecutable.program`.  `len`
is the JS array's `length`; `steps` records the assignments `nodeMap[id] =
node` (most recent first), so an id inside range with no assignment is a
`null` slot. -/
structure ProgramMap where
  len : Nat
  steps : List (Int × Step)

/-- interpreter.ts `BuiltInFunction.func`: `(parameters, env) => any`; the
result env models mutations of the shared `env` object. -/
abbrev BuiltInFn := List (String × JSVal) → VMap → VMap × JSVal

/-- interpreter.ts `AnonTokyoExecutable.execNode`:
`if (id >= this.program.length) throw id; return this.program[id](scope)`.
Calling a `null`/`undefined` slot is a TypeError. -/
def execNodeP (pm : ProgramMap) (id : Int) (fuel : Nat) (s : Scope) :
    Except RErr (Scope × OP) :=
  if (pm.len : Int) ≤ id then .error (.stepIdOutOfRange id)
  else
    match List.lookup id pm.steps with
    | some st => st fuel s
    | none => .error (.nullStep id)

/-- The parameter evaluation shared by the Normal/built-in step and the
ExternCall step of `nodeGenPass` (`mapValues(statement.parameters, (value) =>
isFunction(value) ? value(scope) : value)`): callables are invoked against the
scope, literals pass through unchanged. -/
def evalParamsStep (parameters : List (String × Value)) (s : Scope) :
    Scope × List (String × JSVal) :=
  match parameters with
  | [] => (s, [])
  | (k, v) :: rest =>
    match (match v with
           | .expr e => e s
           | .lit l => (s, l.toJS) : Scope × JSVal) with
    | (s1, jv) =>
      match evalParamsStep rest s1 with
      | (s2, vs) => (s2, (k, jv) :: vs)

/-- The JS value denoted by the text that `emitJITCode` splices for a literal
(compile.ts line 278 `${isFunction(v) ? emitJITExpression(v) : v}` and
line 292 `${statement.value}`): numbers, booleans and `null` round-trip
through their decimal/keyword source text, but a string literal is
interpolated without quotes, so its characters parse as an identifier; for
the string literals arising here (which name neither the generated function's
bindings `local`/`args`/`env`/`helper` nor a JS literal keyword) evaluating
that identifier throws a ReferenceError. -/
def spliceLit : Literal → Except RErr JSVal
  | .num n => .ok (.num n)
  | .bool b => .ok (.bool b)
  | .nullL => .ok .null
  | .str s => .error (.refErr s)

/-- Parameter evaluation performed by the code `emitJITCode` generates for a
built-in call (compile.ts lines 277-281): a callable value is inlined via
`emitJITExpression` and evaluates against the scope; a literal is spliced as
raw text, see `spliceLit`. -/
def evalParamsJit (parameters : List (String × Value)) (s : Scope) :
    Except RErr (Scope × List (String × JSVal)) :=
  match parameters with
  | [] => .ok (s, [])
  | (k, v) :: rest =>
    match (match v with
           | .expr e => .ok (e s)
           | .lit l =>
             match spliceLit l with
             | .ok jv => .ok (s, jv)
             | .error e => .error e : Except RErr (Scope × JSVal)) with
    | .error e => .error e
    | .ok (s1, jv) =>
      match evalParamsJit rest s1 with
      | .error e => .error e
      | .ok (s2, vs) => .ok (s2, (k, jv) :: vs)

/-- Shared compile-time context of node generation. -/
structure GenCtx where
  arena : List FNData
  ids : List (Nat × Int)
  builtins : List (String × BuiltInFn)

/-- Control signal inside a fused (JIT) step, i.e. the JS control flow of the
code `emitJITCode` emits: fall through to the next statement, return an
opcode from the generated function, or a structural `break;`/`continue;`. -/
inductive JitSig where
  | fall (s : Scope)
  | outOp (s : Scope) (op : OP)
  | brk (s : Scope)
  | cont (s : Scope)

/-- The seven mutually recursive run-time pieces of a fused step at one fuel
level. -/
structure JitFns where
  node : Nat → Scope → Except RErr JitSig
  seq : List Nat → Scope → Except RErr JitSig
  ifRun : List (Expr × Nat) → Option Nat → Scope → Except RErr JitSig
  switchFind : JSVal → List (Expr × Nat) → Option Nat → Scope → Except RErr JitSig
  caseRun : List Nat → Scope → Except RErr JitSig
  forRun : Option Expr → Option Expr → Nat → Scope → Except RErr JitSig
  doRun : Option Expr → Option Expr → Nat → Scope → Except RErr JitSig

/-- Run-time behaviour of the JS code `emitJITCode` emits for one flow node
(compile.ts lines 263-348), case by case: inlined expressions evaluate against
the scope, a `return [op]` in the generated text surfaces as `outOp`, and
structural `break;`/`continue;` surface as signals consumed by the enclosing
emitted loop or switch.  `entryId` is `nodes[0].id`, used by the Jump case's
escape test `node.next.id < entry.id`. -/
def jitExecBody (ctx : GenCtx) (entryId : Int) (ih : JitFns) (r : Nat)
    (s : Scope) : Except RErr JitSig :=
  match ctx.arena.get? r with
  | none => .error (.internal "dangling ref")
  | some d =>
    match d with
    | .normal stmt _ _ =>
      match stmt with
      | .expression e _ =>
        match e s with
        | (s1, _) => .ok (.fall s1)
      | .call name ps bi _ =>
        if bi then
          match List.lookup name ctx.builtins with
          | none => .error (.internal "builtin resolved at generation")
          | some f =>
            match evalParamsJit ps s with
            | .error e => .error e
            | .ok (s1, pvs) =>
              match f pvs s1.env with
              | (env2, _) => .ok (.fall { s1 with env := env2 })
        else .error (.internal "unexcept node")
      | _ => .error (.internal "normal")
    | .externCall _ _ _ => .error (.internal "extern call never emitted in jit")
    | .retN stmt _ =>
      match stmt with
      | .ret none => .ok (.outOp s (.retOp .undef))
      | .ret (some (.lit l)) =>
        match spliceLit l with
        | .error e => .error e
        | .ok v => .ok (.outOp s (.retOp v))
      | .ret (some (.expr e)) =>
        match e s with
        | (s1, v) => .ok (.outOp s1 (.retOp v))
      | _ => .error (.internal "ret")
    | .ifN _ bs ow _ _ => ih.ifRun bs ow s
    | .switchN stmt bs ow _ _ =>
      match stmt with
      | .switchS pattern _ _ =>
        -- JS evaluates the switch discriminant once
        match pattern s with
        | (s1, pv) => ih.switchFind pv bs ow s1
      | _ => .error (.internal "switch")
    | .loopInit main _ => ih.node main s
    | .loopN stmt body _ _ =>
      match stmt with
      | .loop skip initializerE cond iter _ _ =>
        match (match initializerE with
               | some i => i s
               | none => (s, .undef) : Scope × JSVal) with
        | (s1, _) =>
          if skip then ih.doRun cond iter body s1
          else ih.forRun cond iter body s1
      | _ => .error (.internal "loop")
    | .jump stmt next _ =>
      -- `if (node.next.id < entry.id) return [Move, node.next.id];`
      if getIdA ctx.ids next < entryId then
        .ok (.outOp s (.move (getIdA ctx.ids next)))
      else
        match stmt with
        | .breakS none => .ok (.brk s)
        | .breakS (some _) => .error (.internal "undeclared label, construction-time SyntaxError")
        | .continueS => .ok (.cont s)
        | _ => .error (.internal "jump")
    | .exitN _ _ => .ok (.outOp s .exitOp)
    | .block nodes _ _ => ih.seq nodes s

/-- Sequencing of the emitted statements of a block (or of the chunk itself):
fall-through continues, anything else propagates. -/
def jitSeqBody (ih : JitFns) (rs : List Nat) (s : Scope) :
    Except RErr JitSig :=
  match rs with
  | [] => .ok (.fall s)
  | r :: rest =>
    match ih.node r s with
    | .error e => .error e
    | .ok (.fall s2) => ih.seq rest s2
    | .ok other => .ok other

/-- The emitted `if (c1) {..} else if (c2) {..} ... else {..}` chain. -/
def jitIfBody (ih : JitFns) (bs : List (Expr × Nat)) (ow : Option Nat)
    (s : Scope) : Except RErr JitSig :=
  match bs with
  | [] =>
    match ow with
    | some o => ih.node o s
    | none => .ok (.fall s)
  | (c, br) :: rest =>
    match c s with
    | (s1, cv) =>
      if jsTruthy cv then ih.node br s1
      else ih.ifRun rest ow s1

/-- Case selection of the emitted `switch`: case expressions are evaluated in
order against the (once-evaluated) discriminant; on a match execution starts
at that case body and falls through the later bodies (and the trailing
`default`); with no match only the `default` body runs. -/
def jitSwitchFindBody (ih : JitFns) (pv : JSVal) (bs : List (Expr × Nat))
    (ow : Option Nat) (s : Scope) : Except RErr JitSig :=
  match bs with
  | [] =>
    match ow with
    | some o => ih.caseRun [o] s
    | none => .ok (.fall s)
  | (c, br) :: rest =>
    match c s with
    | (s1, cv) =>
      if jsStrictEq pv cv then
        ih.caseRun
          (br :: (rest.map (·.2) ++ (match ow with
            | some o => [o]
            | none => []))) s1
      else ih.switchFind pv rest ow s1

/-- Run the emitted case bodies from the matched case on: fall-through chains
to the next body; a structural `break;` leaves the switch; `continue` and
`return [op]` propagate. -/
def jitCasesBody (ih : JitFns) (rs : List Nat) (s : Scope) :
    Except RErr JitSig :=
  match rs with
  | [] => .ok (.fall s)
  | r :: rest =>
    match ih.node r s with
    | .error e => .error e
    | .ok (.fall s2) => ih.caseRun rest s2
    | .ok (.brk s2) => .ok (.fall s2)
    | .ok other => .ok other

/-- The emitted `for (init; cond; iter) body` after its init clause ran: check
the condition (absent means true), run the body, handle `break`/`continue`,
run the iterator, repeat. -/
def jitForBody (ih : JitFns) (cond : Option Expr) (iter : Option Expr)
    (body : Nat) (s : Scope) : Except RErr JitSig :=
  match (match cond with
         | some c =>
           match c s with
           | (s1, cv) => (s1, jsTruthy cv)
         | none => (s, true) : Scope × Bool) with
  | (s1, pass) =>
    if pass then
      match ih.node body s1 with
      | .error e => .error e
      | .ok (.fall s2) =>
        match (match iter with
               | some it => it s2
               | none => (s2, .undef) : Scope × JSVal) with
        | (s3, _) => ih.forRun cond iter body s3
      | .ok (.cont s2) =>
        match (match iter with
               | some it => it s2
               | none => (s2, .undef) : Scope × JSVal) with
        | (s3, _) => ih.forRun cond iter body s3
      | .ok (.brk s2) => .ok (.fall s2)
      | .ok other => .ok other
    else .ok (.fall s1)

/-- The emitted `do { body iter; } while (cond)`: the iterator text is part of
the do-block, so a structural `continue` skips it and jumps to the condition;
an absent condition would emit `while ()`, a construction-time SyntaxError,
so it is unreachable here. -/
def jitDoBody (ih : JitFns) (cond : Option Expr) (iter : Option Expr)
    (body : Nat) (s : Scope) : Except RErr JitSig :=
  match ih.node body s with
  | .error e => .error e
  | .ok (.fall s2) =>
    match (match iter with
           | some it => it s2
           | none => (s2, .undef) : Scope × JSVal) with
    | (s3, _) =>
      match cond with
      | some c =>
        match c s3 with
        | (s4, cv) =>
          if jsTruthy cv then ih.doRun cond iter body s4
          else .ok (.fall s4)
      | none => .error (.internal "empty do-while condition")
  | .ok (.cont s2) =>
    match cond with
    | some c =>
      match c s2 with
      | (s4, cv) =>
        if jsTruthy cv then ih.doRun cond iter body s4
        else .ok (.fall s4)
    | none => .error (.internal "empty do-while condition")
  | .ok (.brk s2) => .ok (.fall s2)
  | .ok other => .ok other

/-- Fuel-indexed tower of the fused-step semantics. -/
def jitCore (ctx : GenCtx) (entryId : Int) : Nat → JitFns :=
  Nat.rec
    { node := fun _ _ => .error .fuelOut
      seq := fun _ _ => .error .fuelOut
      ifRun := fun _ _ _ => .error .fuelOut
      switchFind := fun _ _ _ _ => .error .fuelOut
      caseRun := fun _ _ => .error .fuelOut
      forRun := fun _ _ _ _ => .error .fuelOut
      doRun := fun _ _ _ _ => .error .fuelOut }
    (fun _ ih =>
      { node := jitExecBody ctx entryId ih
        seq := jitSeqBody ih
        ifRun := jitIfBody ih
        switchFind := jitSwitchFindBody ih
        caseRun := jitCasesBody ih
        forRun := jitForBody ih
        doRun := jitDoBody ih })

/-- Run the emitted code of one node, with fuel. -/
def jitExec (fuel : Nat) (ctx : GenCtx) (entryId : Int) (r : Nat) (s : Scope) :
    Except RErr JitSig :=
  (jitCore ctx entryId fuel).node r s

/-- Run the emitted code of a chunk (the fused step's whole body), with fuel. -/
def jitSeq (fuel : Nat) (ctx : GenCtx) (entryId : Int) (rs : List Nat)
    (s : Scope) : Except RErr JitSig :=
  (jitCore ctx entryId fuel).seq rs s

/-- The two validation functions at one fuel level. -/
structure ValFns where
  node : Nat → Except CErr Unit
  list : List Nat → Except CErr Unit

/-- Compile-time walk of `emitJITCode`/`emitJITNode` over a fused chunk: the
code-generation-time failures of the source (resolving a built-in eagerly,
`"unexcept jit node"` for an extern call, emitting `break L;` with no declared
label `L` or `while ();` for a condition-less do-while — both SyntaxErrors at
`new AsyncFunction`). -/
def validateJITBody (ctx : GenCtx) (entryId : Int) (ih : ValFns) (r : Nat) :
    Except CErr Unit :=
  match ctx.arena.get? r with
  | none => .error (.internal "dangling ref")
  | some d =>
    match d with
    | .normal stmt _ _ =>
      match stmt with
      | .expression _ _ => .ok ()
      | .call name _ bi _ =>
        if bi then
          if (List.lookup name ctx.builtins).isSome then .ok ()
          else .error (.missingBuiltIn name)
        else .error (.internal "unexcept node")
      | _ => .error (.internal "normal")
    | .externCall _ _ _ => .error .jitExternCall
    | .retN _ _ => .ok ()
    | .ifN _ bs ow _ _ => do
      ih.list (bs.map (·.2))
      match ow with
      | some o => ih.node o
      | none => .ok ()
    | .switchN _ bs ow _ _ => do
      ih.list (bs.map (·.2))
      match ow with
      | some o => ih.node o
      | none => .ok ()
    | .loopInit main _ => ih.node main
    | .loopN stmt body _ _ =>
      match stmt with
      | .loop skip _ cond _ _ _ => do
        ih.node body
        if skip && cond.isNone then .error .jitBadCondition else .ok ()
      | _ => .error (.internal "loop")
    | .jump stmt next _ =>
      if getIdA ctx.ids next < entryId then .ok ()
      else
        match stmt with
        | .breakS (some l) => .error (.jitBadLabel l)
        | .breakS none => .ok ()
        | .continueS => .ok ()
        | _ => .error (.internal "jump")
    | .exitN _ _ => .ok ()
    | .block nodes _ _ => ih.list nodes

/-- List form of the validation walk. -/
def validateJITListBody (ih : ValFns) (rs : List Nat) : Except CErr Unit :=
  match rs with
  | [] => .ok ()
  | r :: rest => do
    ih.node r
    ih.list rest

/-- Fuel-indexed tower of the validation walk. -/
def valCore (ctx : GenCtx) (entryId : Int) : Nat → ValFns :=
  Nat.rec
    { node := fun _ => .error .fuelOut, list := fun _ => .error .fuelOut }
    (fun _ ih =>
      { node := validateJITBody ctx entryId ih
        list := validateJITListBody ih })

/-- Validate a fused chunk, with fuel. -/
def validateJITList (fuel : Nat) (ctx : GenCtx) (entryId : Int)
    (rs : List Nat) : Except CErr Unit :=
  (valCore ctx entryId fuel).list rs

/-- utils.ts `splitArray`: split at elements satisfying the predicate, each
such element becoming a singleton chunk. -/
def splitArray (xs : List α) (predictor : α → Bool) : List (List α) :=
  xs.foldl (fun chunks x =>
    if predictor x then chunks ++ [[x], []]
    else
      match chunks.getLast? with
      | some l => chunks.dropLast ++ [l ++ [x]]
      | none => [[x]]) [[]]

/-- State of node generation: the assignments `nodeMap[id] = step` (most
recent first) and the JS array's `length`. -/
structure GenSt where
  steps : List (Int × Step)
  len : Nat

/-- The node-generation monad. -/
abbrev GenM := StateT GenSt (Except CErr)

/-- `nodeGenPass`'s `addNode`: a JS array assignment, which extends `length`
only for an index at or beyond it (negative indices never do). -/
def addNodeG (id : Int) (step : Step) : GenM Unit := fun st =>
  .ok ((), { steps := (id, step) :: st.steps,
             len := if (st.len : Int) < id + 1 then (id + 1).toNat else st.len })

/-- Throw during node generation. -/
def throwG (e : CErr) : GenM α := fun _ => .error e

/-- Lift a compile-time check into the generation monad. -/
def liftExceptG (x : Except CErr α) : GenM α := fun st =>
  match x with
  | .ok a => .ok (a, st)
  | .error e => .error e

/-- Run-time body of the If step (nodeGenPass If case): branch conditions are
awaited in order, the first truthy one wins, then `otherwise`, then `next`.
Branch ids were read from the labelled nodes. -/
def runIfStep (bs : List (Expr × Int)) (owId : Option Int) (nextId : Int)
    (s : Scope) : Scope × OP :=
  match bs with
  | [] =>
    match owId with
    | some i => (s, .move i)
    | none => (s, .move nextId)
  | (c, bid) :: rest =>
    match c s with
    | (s1, cv) =>
      if jsTruthy cv then (s1, .move bid)
      else runIfStep rest owId nextId s1

/-- Run-time body of the Switch step (nodeGenPass Switch case): for each
branch the source re-evaluates `pattern(scope)` and compares it strictly with
the awaited branch condition; first match wins, then `otherwise`, then
`next`. -/
def runSwitchStep (pattern : Expr) (bs : List (Expr × Int)) (owId : Option Int)
    (nextId : Int) (s : Scope) : Scope × OP :=
  match bs with
  | [] =>
    match owId with
    | some i => (s, .move i)
    | none => (s, .move nextId)
  | (c, bid) :: rest =>
    match pattern s with
    | (s1, pv) =>
      match c s1 with
      | (s2, cv) =>
        if jsStrictEq pv cv then (s2, .move bid)
        else runSwitchStep pattern rest owId nextId s2

/-- compile.ts `emitJITNode`: resolve/validate the chunk at generation time,
then register a single fused step at the first node's id whose behaviour is
the emitted JS code's (`jitSeq`); the generated async function returning
without hitting a `return [op]` yields `undefined`, whose destructuring in the
stepper is a TypeError (`opUndefined`). -/
def emitJITNode (ctx : GenCtx) (chunk : List Nat) : GenM Unit :=
  match chunk.head? with
  | none => pure ()
  | some entry => do
    let entryId := getIdA ctx.ids entry
    -- the validation walk descends a tree of distinct nodes, so the arena
    -- size bounds its depth
    liftExceptG (validateJITList (ctx.arena.length + 1) ctx entryId chunk)
    addNodeG entryId (fun fuel s =>
      match jitSeq fuel ctx entryId chunk s with
      | .ok (.outOp s2 op) => .ok (s2, op)
      | .ok (.fall _) => .error .opUndefined
      | .ok (.brk _) => .error (.internal "stray break")
      | .ok (.cont _) => .error (.internal "stray continue")
      | .error e => .error e)

/-- The three generation functions at one fuel level. -/
structure EmitFns where
  node : Nat → GenM Unit
  list : List Nat → GenM Unit
  chunks : List (List Nat) → GenM Unit

/-- compile.ts `nodeGenPass`'s `emitNode`: one executable step per flow node.
The Block case splits its children into runs at non-mergeable nodes
(`splitArray(node.nodes, (node) => !node.mergable)`); a singleton chunk whose
node is not a mergeable If/Switch/Loop gets its straightforward step, every
other non-empty chunk is fused by `emitJITNode`. -/
def emitNodeBody (ctx : GenCtx) (ih : EmitFns) (r : Nat) : GenM Unit :=
  match ctx.arena.get? r with
  | none => throwG (.internal "dangling ref")
  | some d =>
    let selfId := getIdA ctx.ids r
    match d with
    | .normal stmt next _ =>
      let nextId := getIdA ctx.ids next
      match stmt with
      | .expression e _ =>
        addNodeG selfId (fun _ s =>
          match e s with
          | (s1, _) => .ok (s1, .move nextId))
      | .call name ps bi _ =>
        if bi then
          match List.lookup name ctx.builtins with
          | none => throwG (.missingBuiltIn name)
          | some f =>
            addNodeG selfId (fun _ s =>
              match evalParamsStep ps s with
              | (s1, pvs) =>
                match f pvs s1.env with
                | (env2, _) => .ok ({ s1 with env := env2 }, .move nextId))
        else throwG .notImplement
      | _ => throwG (.internal "normal")
    | .externCall stmt next _ =>
      let nextId := getIdA ctx.ids next
      match stmt with
      | .call name ps _ _ =>
        addNodeG selfId (fun _ s =>
          match evalParamsStep ps s with
          | (s1, pvs) => .ok (s1, .callOp name pvs nextId))
      | _ => throwG (.internal "externcall")
    | .retN stmt _ =>
      match stmt with
      | .ret (some (.expr e)) =>
        addNodeG selfId (fun _ s =>
          match e s with
          | (s1, v) => .ok (s1, .retOp v))
      | .ret (some (.lit l)) =>
        addNodeG selfId (fun _ s => .ok (s, .retOp l.toJS))
      | .ret none => addNodeG selfId (fun _ s => .ok (s, .retOp .undef))
      | _ => throwG (.internal "ret")
    | .ifN _ bs ow next _ => do
      ih.list (bs.map (·.2))
      (match ow with
        | some o => ih.node o
        | none => pure ())
      let bids := bs.map (fun p => (p.1, getIdA ctx.ids p.2))
      let owId := ow.map (getIdA ctx.ids)
      let nextId := getIdA ctx.ids next
      addNodeG selfId (fun _ s => .ok (runIfStep bids owId nextId s))
    | .switchN stmt bs ow next _ => do
      ih.list (bs.map (·.2))
      (match ow with
        | some o => ih.node o
        | none => pure ())
      let bids := bs.map (fun p => (p.1, getIdA ctx.ids p.2))
      let owId := ow.map (getIdA ctx.ids)
      let nextId := getIdA ctx.ids next
      match stmt with
      | .switchS pattern _ _ =>
        addNodeG selfId (fun _ s => .ok (runSwitchStep pattern bids owId nextId s))
      | _ => throwG (.internal "switch")
    | .loopInit main _ => do
      (match ctx.arena.get? main with
        | some (.loopN stmt body _ _) =>
          match stmt with
          | .loop skip initializerE _ _ _ _ =>
            let target := if skip then getIdA ctx.ids body else getIdA ctx.ids main
            match initializerE with
            | some i =>
              addNodeG selfId (fun _ s =>
                match i s with
                | (s1, _) => .ok (s1, .move target))
            | none =>
              -- `main.statement.initializer!(scope)` on a missing initializer
              -- is a runtime TypeError
              addNodeG selfId (fun _ _ => .error (.typeErr "initializer"))
          | _ => throwG (.internal "loopinit")
        | _ => throwG (.internal "loopinit"))
      ih.node main
    | .loopN stmt body next _ => do
      let bodyId := getIdA ctx.ids body
      let nextId := getIdA ctx.ids next
      (match stmt with
        | .loop _ _ cond iter _ _ =>
          addNodeG selfId (fun _ s =>
            match (match iter with
                   | some it => it s
                   | none => (s, .undef) : Scope × JSVal) with
            | (s1, _) =>
              match cond with
              | some c =>
                match c s1 with
                | (s2, cv) =>
                  if jsTruthy cv then .ok (s2, .move bodyId)
                  else .ok (s2, .move nextId)
              | none =>
                -- `if (statement.condition && await statement.condition(scope))`:
                -- an absent condition falls to the else branch
                .ok (s1, .move nextId))
        | _ => throwG (.internal "loop"))
      ih.node body
    | .jump _ next _ =>
      let nextId := getIdA ctx.ids next
      addNodeG selfId (fun _ s => .ok (s, .move nextId))
    | .exitN _ _ => addNodeG selfId (fun _ s => .ok (s, .exitOp))
    | .block nodes _ _ =>
      let chunks := splitArray nodes
        (fun r2 => !(((ctx.arena.get? r2).map FNData.mergableOf).getD false))
      ih.chunks chunks

/-- `branches.forEach(({node}) => emitNode(node))`. -/
def emitListBody (ih : EmitFns) (rs : List Nat) : GenM Unit :=
  match rs with
  | [] => pure ()
  | r :: rest => do
    ih.node r
    ih.list rest

/-- The Block case's `for (const chunk of chunks)` loop. -/
def emitChunksBody (ctx : GenCtx) (ih : EmitFns) (chunks : List (List Nat)) :
    GenM Unit :=
  match chunks with
  | [] => pure ()
  | ch :: rest => do
    (match ch with
      | [] => pure ()
      | [single] =>
        let kind := (ctx.arena.get? single).map FNData.kindOf
        let merg := ((ctx.arena.get? single).map FNData.mergableOf).getD false
        let isComposite :=
          kind == some .ifK || kind == some .switchK || kind == some .loopK
        if !isComposite || !merg then ih.node single
        else emitJITNode ctx ch
      | _ => emitJITNode ctx ch)
    ih.chunks rest

/-- Fuel-indexed tower of node generation. -/
def emitCore (ctx : GenCtx) : Nat → EmitFns :=
  Nat.rec
    { node := fun _ => throwG .fuelOut
      list := fun _ => throwG .fuelOut
      chunks := fun _ => throwG .fuelOut }
    (fun _ ih =>
      { node := emitNodeBody ctx ih
        list := emitListBody ih
        chunks := emitChunksBody ctx ih })

/-- compile.ts `emitNode`, with fuel. -/
def emitNode (fuel : Nat) (ctx : GenCtx) (r : Nat) : GenM Unit :=
  (emitCore ctx fuel).node r

/-- compile.ts `nodeGenPass`: `Array(program.next.id).fill(null)` then emit
from the root block. -/
def nodeGenPass (fuel : Nat) (res : FlowResult)
    (builtins : List (String × BuiltInFn)) : Except CErr ProgramMap := do
  let ctx : GenCtx := { arena := res.arena, ids := res.ids, builtins := builtins }
  match res.arena.get? res.root with
  | some (.block _ next _) =>
    let st0 : GenSt := { steps := [], len := (getIdA res.ids next).toNat }
    let (_, st) ← (emitNode fuel ctx res.root).run st0
    pure { len := st.len, steps := st.steps }
  | _ => .error (.internal "root")

/-- compile.ts `compile`: the two passes in sequence. -/
def compileScript (fuel : Nat) (builtins : List (String × BuiltInFn))
    (script : List Statement) : Except CErr ProgramMap := do
  let res ← flowAnalyzePass fuel script
  nodeGenPass fuel res builtins

/-! ## Stepping engine (interpreter.ts) -/

/-- One in-flight invocation (`AnonTokyoIterator`): its executable, the
program counter `current` (initially 0, `-1` returning, `-2` exit), the
per-call `local` mapping (`context`), the call parameters, and the stashed
return value. -/
structure Frame where
  program : ProgramMap
  current : Int
  locals : VMap
  args : VMap
  returnValue : JSVal

/-- A fresh frame (`new AnonTokyoIterator(executable, parameters, ctx)`). -/
def mkFrame (pm : ProgramMap) (params : VMap) : Frame :=
  { program := pm, current := 0, locals := [], args := params,
    returnValue := .undef }

/-- The whole execution state of one `AnonTokyoExecutionContext`: the call
stack (top first), the shared `env`, and the interpreter's compiled global
functions. -/
structure Config where
  stack : List Frame
  env : VMap
  globals : List (String × ProgramMap)

/-- One transition of the stepping engine.  A frame with `current ≥ 0`
performs `AnonTokyoIterator.next()`: its step runs on a scope rebuilt from the
frame and the shared env, and the opcode is dispatched — in the Call case
`this.current = next` happens before the callee frame is created and pushed,
and the callee's eventual result is discarded by the caller.  A frame with
`current < 0` has left its run loop: it is popped, and when it was the last
frame the invocation's result is the return value for `-1`, the exit signal
for `-2` (and `undefined` otherwise, as `run()` falls through). -/
def machineStep (fuel : Nat) (cfg : Config) : Except RErr (Sum Config JSVal) :=
  match cfg.stack with
  | [] => .error (.internal "empty call stack")
  | fr :: rest =>
    if fr.current < 0 then
      let v : JSVal :=
        if fr.current == -1 then fr.returnValue
        else if fr.current == -2 then .exitSig
        else .undef
      match rest with
      | [] => .ok (.inr v)
      | _ :: _ => .ok (.inl { cfg with stack := rest })
    else
      match execNodeP fr.program fr.current fuel
        { args := fr.args, locals := fr.locals, env := cfg.env } with
      | .error e => .error e
      | .ok (s2, op) =>
        match s2 with
        | ⟨args2, locals2, env2⟩ =>
          match op with
          | .move n =>
            .ok (.inl { cfg with
              stack := { fr with current := n, locals := locals2, args := args2 } :: rest,
              env := env2 })
          | .callOp name params n =>
            match List.lookup name cfg.globals with
            | none => .error (.missingGlobal name)
            | some pm =>
              .ok (.inl { cfg with
                stack := mkFrame pm params ::
                  { fr with current := n, locals := locals2, args := args2 } :: rest,
                env := env2 })
          | .retOp v =>
            .ok (.inl { cfg with
              stack := { fr with current := (-1 : Int), returnValue := v, locals := locals2, args := args2 } :: rest,
              env := env2 })
          | .exitOp =>
            .ok (.inl { cfg with
              stack := { fr with current := -2, locals := locals2, args := args2 } :: rest,
              env := env2 })

/-- Iterate `machineStep` to the invocation's result. -/
def runMachine : Nat → Config → Except RErr JSVal :=
  Nat.rec
    (fun _ => .error .fuelOut)
    (fun fuel ih cfg =>
      match machineStep (fuel + 1) cfg with
      | .error e => .error e
      | .ok (.inl cfg2) => ih cfg2
      | .ok (.inr v) => .ok v)

/-- interpreter.ts `loadGlobalFunctions`: compile every global function at
interpreter construction. -/
def loadGlobalFunctions (fuel : Nat) (builtins : List (String × BuiltInFn)) :
    List (String × List Statement) → Except CErr (List (String × ProgramMap))
  | [] => .ok []
  | (n, script) :: rest => do
    let pm ← compileScript fuel builtins script
    let rest' ← loadGlobalFunctions fuel builtins rest
    .ok ((n, pm) :: rest')

/-- A compile-time or a run-time failure of the whole façade. -/
inductive IErr where
  | cerr (e : CErr)
  | rerr (e : RErr)
deriving DecidableEq

/-- interpreter.ts `AnonTokyoInterpreter.exec`: construct the interpreter
(compiling the global functions), compile the script, then run a fresh
execution context with one stepper frame. -/
def interpExec (fuel : Nat) (builtins : List (String × BuiltInFn))
    (globalFns : List (String × List Statement)) (script : List Statement)
    (params env : VMap) : Except IErr JSVal := do
  let gl ← (loadGlobalFunctions fuel builtins globalFns).mapError IErr.cerr
  let pm ← (compileScript fuel builtins script).mapError IErr.cerr
  (runMachine fuel { stack := [mkFrame pm params], env := env, globals := gl }).mapError IErr.rerr

/-- The success payload of an `Except`, for decidable statements about
computation results whose full result type contains functions. -/
def exOk {ε α : Type} (x : Except ε α) : Option α :=
  match x with
  | .ok a => some a
  | .error _ => none

/-- The error of an `Except`. -/
def exErr {ε α : Type} (x : Except ε α) : Option ε :=
  match x with
  | .ok _ => none
  | .error e => some e

/-! ## Concrete programs used by the claims

The expression helpers model the arrow functions of the spec's scenarios
(`({ local }) => local.k = 0`, `({ local }) => local.i < N`, …) as scope
transformers. -/

/-- `() => n`. -/
def eNum (n : Int) : Expr := fun s => (s, .num n)

/-- `({ local }) => local.k = n`. -/
def eSetL (k : String) (n : Int) : Expr := fun s =>
  ({ s with locals := vset s.locals k (.num n) }, .num n)

/-- `({ local }) => local.k`. -/
def eGetL (k : String) : Expr := fun s => (s, vget s.locals k)

/-- `({ local }) => local.i++` (post-increment). -/
def ePostIncL (k : String) : Expr := fun s =>
  match vget s.locals k with
  | .num n => ({ s with locals := vset s.locals k (.num (n + 1)) }, .num n)
  | v => (s, v)

/-- `({ local }) => local.i < n`. -/
def eLtL (k : String) (n : Int) : Expr := fun s =>
  match vget s.locals k with
  | .num m => (s, .bool (m < n))
  | _ => (s, .bool false)

/-- `({ local }) => local.k += local.i`. -/
def eAddL (k j : String) : Expr := fun s =>
  match vget s.locals k, vget s.locals j with
  | .num a, .num b =>
    ({ s with locals := vset s.locals k (.num (a + b)) }, .num (a + b))
  | _, _ => (s, .undef)

/-- `({ local }) => local.k += 1`. -/
def eIncByOne (k : String) : Expr := fun s =>
  match vget s.locals k with
  | .num a => ({ s with locals := vset s.locals k (.num (a + 1)) }, .num (a + 1))
  | _ => (s, .undef)

/-- The empty scope of a fresh top-level call with no parameters. -/
def s0 : Scope := { args := [], locals := [], env := [] }

/-- Fallback values for projections out of `Except`. -/
def dfltRes : FlowResult := { root := 0, implicitRef := 0, arena := [], ids := [] }

/-- Fallback program. -/
def dfltPM : ProgramMap := { len := 0, steps := [] }

/-- Branch block references of an If/Switch node. -/
def FlowResult.branchNodesAt (res : FlowResult) (r : Nat) : Option (List Nat) :=
  (res.arena.get? r).bind (fun d =>
    match d with
    | .ifN _ bs _ _ _ => some (bs.map (·.2))
    | .switchN _ bs _ _ _ => some (bs.map (·.2))
    | _ => none)

/-- C1: main calls the global function `g` (which executes Exit) and then
returns 42; spec scenario 6 expects the exit to propagate to the top level. -/
def progExitViaCall : List Statement :=
  [.call "g" [] false false, .ret (some (.lit (.num 42)))]

/-- C2: a loop labelled `L` whose body is `break L`, followed by another
statement (the loop's outer successor). -/
def progLabelledBreakLoop : List Statement :=
  [.loop false none (some (eNum 1)) none (some "L") [.breakS (some "L")],
   .expression (eNum 1) false]

/-- C2: the unlabelled variant. -/
def progUnlabelledBreakLoop : List Statement :=
  [.loop false none (some (eNum 1)) none none [.breakS none],
   .expression (eNum 1) false]

/-- C2: a loop whose body is `continue`. -/
def progContinueLoop : List Statement :=
  [.loop false none (some (eNum 1)) none none [.continueS],
   .expression (eNum 1) false]

/-- Flow analysis of the labelled-break program. -/
def resLabelledBreak : FlowResult :=
  (flowAnalyzePass 30 progLabelledBreakLoop).toOption.getD dfltRes

/-- Flow analysis of the unlabelled-break program. -/
def resUnlabelledBreak : FlowResult :=
  (flowAnalyzePass 30 progUnlabelledBreakLoop).toOption.getD dfltRes

/-- Flow analysis of the continue program. -/
def resContinue : FlowResult :=
  (flowAnalyzePass 30 progContinueLoop).toOption.getD dfltRes

/-- C4: a switch whose single branch matches (pattern 1, condition 1) and
performs a global-function call (so the switch is not fused), followed by
`return 42` (the switch's outer successor). -/
def progSwitchMatchCall : List Statement :=
  [.switchS (eNum 1) [(eNum 1, [.call "g" [] false false])] none,
   .ret (some (.lit (.num 42)))]

/-- C4: the same switch with a non-matching branch and no otherwise. -/
def progSwitchNoMatch : List Statement :=
  [.switchS (eNum 1) [(eNum 2, [.call "g" [] false false])] none,
   .ret (some (.lit (.num 42)))]

/-- Flow analysis of the matching-switch program. -/
def resSwitchMatch : FlowResult :=
  (flowAnalyzePass 30 progSwitchMatchCall).toOption.getD dfltRes

/-- C5: a loop with no condition (spec: ≡ always true) whose body performs a
global-function call, so the loop head is compiled as a standalone step. -/
def progBareLoopCall : List Statement :=
  [.loop false none none none none [.call "g" [] false false]]

/-- Flow analysis of the condition-less loop program. -/
def resBareLoop : FlowResult :=
  (flowAnalyzePass 30 progBareLoopCall).toOption.getD dfltRes

/-- Its compiled program (no built-ins needed). -/
def pmBareLoop : ProgramMap :=
  (compileScript 30 [] progBareLoopCall).toOption.getD dfltPM

/-- C6: the spec's counting loop, fully mergeable (fused):
`local.k = 0; for (local.i = 0; local.i < 10; local.i++) local.k += local.i;
return local.k`. -/
def progCountingFused : List Statement :=
  [.expression (eSetL "k" 0) false,
   .loop false (some (eSetL "i" 0)) (some (eLtL "i" 10)) (some (ePostIncL "i"))
     none [.expression (eAddL "k" "i") false],
   .ret (some (.expr (eGetL "k")))]

/-- C6: a counting loop of the claim's shape (`i := 0; i < 3; i++`) whose body
counts its executions in `local.k`, with global-function calls placed so that
the loop head, its initializer and the body are compiled as standalone steps
(the loop is not fused). -/
def progCountingStepped : List Statement :=
  [.expression (eSetL "k" 0) false,
   .call "g" [] false false,
   .loop false (some (eSetL "i" 0)) (some (eLtL "i" 3)) (some (ePostIncL "i"))
     none [.call "g" [] false false, .expression (eIncByOne "k") false],
   .call "g" [] false false,
   .ret (some (.expr (eGetL "k")))]

/-- Body block reference of a Loop node. -/
def FlowResult.loopBodyAt (res : FlowResult) (r : Nat) : Option Nat :=
  (res.arena.get? r).bind (fun d =>
    match d with
    | .loopN _ body _ _ => some body
    | _ => none)

/-- The implicit return node object `flowAnalyzePass` creates. -/
def implicitFN : FNData := .retN (.ret none) true

/-- Arena cell 0 holds the implicit return node. -/
def Ret0 (st : FState) : Prop := st.arena.get? 0 = some implicitFN

/-- A flow computation preserves `Ret0` along every successful run. -/
def PresM {α : Type} (x : FlowM α) : Prop :=
  ∀ st a st2, Ret0 st → x st = .ok (a, st2) → Ret0 st2

/-- Flow analysis of the empty program. -/
def resEmpty : FlowResult := (flowAnalyzePass 9 []).toOption.getD dfltRes

/-- A one-step caller program for exercising the Call dispatch: its only step
issues `Call("g", {}, 7)`. -/
def c7pmMain : ProgramMap :=
  { len := 1, steps := [(0, fun _ s => .ok (s, .callOp "g" [] 7))] }

/-- The callee's compiled program (empty). -/
def c7pmG : ProgramMap := { len := 0, steps := [] }

/-- A fresh caller frame for `c7pmMain`. -/
def c7fr : Frame :=
  { program := c7pmMain, current := 0, locals := [], args := [],
    returnValue := .undef }

/-! ## Theorems -/

theorem pres_pure {α : Type} (a : α) : PresM (pure a : FlowM α) := by
  intro st b st2 h0 hok
  simp only [pure, StateT.pure, Except.pure] at hok
  cases hok
  exact h0

theorem pres_bind {α β : Type} {x : FlowM α} {f : α → FlowM β}
    (hx : PresM x) (hf : ∀ a, PresM (f a)) : PresM (x >>= f) := by
  intro st b st2 h0 hok
  simp only [Bind.bind, StateT.bind] at hok
  rcases hxs : x st with e | ⟨a, s1⟩
  · rw [hxs] at hok; simp [Except.bind] at hok
  · rw [hxs] at hok
    simp only [Except.bind] at hok
    exact hf a s1 b st2 (hx st a s1 h0 hxs) hok

theorem pres_alloc (d : FNData) : PresM (alloc d) := by
  intro st a st2 h0 hok
  simp only [alloc] at hok
  cases hok
  unfold Ret0 at h0 ⊢
  simp only []
  rw [List.get?_append]
  · exact h0
  · cases harena : st.arena with
    | nil => rw [harena] at h0; simp [List.get?] at h0
    | cons hd tl => simp [harena]

theorem pres_getNode (r : Nat) : PresM (getNode r) := by
  intro st a st2 h0 hok
  simp only [getNode] at hok
  rcases h : st.arena.get? r with _ | d
  · rw [h] at hok; cases hok
  · rw [h] at hok; cases hok; exact h0

theorem pres_allMergable (rs : List Nat) : PresM (allMergable rs) := by
  intro st a st2 h0 hok
  simp only [allMergable] at hok
  cases hok
  exact h0

theorem pres_throwC {α : Type} (e : CErr) : PresM (throwC e : FlowM α) := by
  intro st a st2 h0 hok
  simp [throwC] at hok

theorem pres_registerLabel (l : String) (r : Nat) : PresM (registerLabel l r) := by
  intro st a st2 h0 hok
  simp only [registerLabel] at hok
  by_cases h : (List.lookup l st.labelMap).isSome
  · rw [if_pos h] at hok; cases hok
  · rw [if_neg h] at hok; cases hok; exact h0

theorem pres_deleteLabel (l : String) : PresM (deleteLabel l) := by
  intro st a st2 h0 hok
  simp only [deleteLabel] at hok
  cases hok
  exact h0

theorem pres_lookupLabel (l : String) : PresM (lookupLabel l) := by
  intro st a st2 h0 hok
  simp only [lookupLabel] at hok
  cases hok
  exact h0

theorem pres_pushBreakable (r : Nat) : PresM (pushBreakable r) := by
  intro st a st2 h0 hok
  simp only [pushBreakable] at hok
  cases hok
  exact h0

theorem pres_popBreakable : PresM popBreakable := by
  intro st a st2 h0 hok
  simp only [popBreakable] at hok
  cases hok
  exact h0

theorem pres_peekBreakable : PresM peekBreakable := by
  intro st a st2 h0 hok
  simp only [peekBreakable] at hok
  cases hok
  exact h0

theorem arenaModify_ret0 (a : List FNData) (r : Nat) (f : FNData → FNData)
    (hf : f implicitFN = implicitFN)
    (h0 : a.get? 0 = some implicitFN) :
    (arenaModify a r f).get? 0 = some implicitFN := by
  unfold arenaModify
  rcases h : a.get? r with _ | d
  · exact h0
  · rcases Nat.eq_zero_or_pos r with hr | hr
    · subst hr
      rw [h0] at h
      cases h
      rw [List.get?_set_eq_of_lt, hf]
      cases ha : a with
      | nil => rw [ha] at h0; simp [List.get?] at h0
      | cons hd tl => simp [ha]
    · rw [List.get?_set_ne]
      · exact h0
      · omega

theorem pres_updateLoopBody (r b : Nat) : PresM (updateLoopBody r b) := by
  intro st a st2 h0 hok
  simp only [updateLoopBody] at hok
  cases hok
  exact arenaModify_ret0 _ _ _ rfl h0

theorem pres_updateLoopMergable (r : Nat) (m : Bool) :
    PresM (updateLoopMergable r m) := by
  intro st a st2 h0 hok
  simp only [updateLoopMergable] at hok
  cases hok
  exact arenaModify_ret0 _ _ _ rfl h0

theorem pres_ite {α : Type} {c : Prop} [Decidable c] {x y : FlowM α}
    (hx : PresM x) (hy : PresM y) : PresM (if c then x else y) := by
  split
  · exact hx
  · exact hy

theorem flowCore_pres (fuel : Nat) :
    (∀ stmt succ, PresM ((flowCore fuel).stmt stmt succ)) ∧
    (∀ ss succ, PresM ((flowCore fuel).chain ss succ)) ∧
    (∀ ss succ, PresM ((flowCore fuel).blockFn ss succ)) ∧
    (∀ bs succ, PresM ((flowCore fuel).ifBranches bs succ)) ∧
    (∀ bs l0, PresM ((flowCore fuel).switchBranches bs l0)) := by
  induction fuel with
  | zero =>
    exact ⟨fun _ _ => pres_throwC _, fun _ _ => pres_throwC _,
           fun _ _ => pres_throwC _, fun _ _ => pres_throwC _,
           fun _ _ => pres_throwC _⟩
  | succ n ih =>
    obtain ⟨ihStmt, ihChain, ihBlock, ihIf, ihSwitch⟩ := ih
    refine ⟨?_, ?_, ?_, ?_, ?_⟩
    · intro stmt succ
      show PresM (toFlowNodeBody (flowCore n) stmt succ)
      cases stmt with
      | expression e isAsync => exact pres_alloc _
      | call fn ps bi isAsync =>
        exact pres_ite (pres_alloc _) (pres_alloc _)
      | ret v => exact pres_alloc _
      | ifS branches otherwise =>
        cases otherwise with
        | some o =>
          refine pres_bind (ihIf _ _) (fun bs => ?_)
          refine pres_bind (ihBlock _ _) (fun lift => ?_)
          refine pres_bind (pres_pure _) (fun ow => ?_)
          refine pres_bind (pres_allMergable _) (fun bm => ?_)
          cases ow with
          | some r =>
            refine pres_bind (pres_getNode _) (fun d => ?_)
            exact pres_bind (pres_pure _) (fun om => pres_alloc _)
          | none => exact pres_bind (pres_pure _) (fun om => pres_alloc _)
        | none =>
          refine pres_bind (ihIf _ _) (fun bs => ?_)
          refine pres_bind (pres_pure _) (fun ow => ?_)
          refine pres_bind (pres_allMergable _) (fun bm => ?_)
          cases ow with
          | some r =>
            refine pres_bind (pres_getNode _) (fun d => ?_)
            exact pres_bind (pres_pure _) (fun om => pres_alloc _)
          | none => exact pres_bind (pres_pure _) (fun om => pres_alloc _)
      | switchS p branches otherwise =>
        cases otherwise with
        | some o =>
          refine pres_bind (ihBlock _ _) (fun lift => ?_)
          refine pres_bind (pres_pure _) (fun ow => ?_)
          refine pres_bind (ihSwitch _ _) (fun bsLast => ?_)
          refine pres_bind (pres_allMergable _) (fun bm => ?_)
          cases ow with
          | some r =>
            refine pres_bind (pres_getNode _) (fun d => ?_)
            exact pres_bind (pres_pure _) (fun om => pres_alloc _)
          | none => exact pres_bind (pres_pure _) (fun om => pres_alloc _)
        | none =>
          refine pres_bind (pres_pure _) (fun ow => ?_)
          refine pres_bind (ihSwitch _ _) (fun bsLast => ?_)
          refine pres_bind (pres_allMergable _) (fun bm => ?_)
          cases ow with
          | some r =>
            refine pres_bind (pres_getNode _) (fun d => ?_)
            exact pres_bind (pres_pure _) (fun om => pres_alloc _)
          | none => exact pres_bind (pres_pure _) (fun om => pres_alloc _)
      | loop skip initializerE cond iter label body =>
        cases label with
        | some l =>
          refine pres_bind (ihBlock _ _) (fun placeholder => ?_)
          refine pres_bind (pres_alloc _) (fun loopRef => ?_)
          refine pres_bind (pres_registerLabel _ _) (fun u1 => ?_)
          refine pres_bind (pres_pushBreakable _) (fun u2 => ?_)
          refine pres_bind (ihBlock _ _) (fun bodyRef => ?_)
          refine pres_bind (pres_updateLoopBody _ _) (fun u3 => ?_)
          refine pres_bind (pres_getNode _) (fun bodyNode => ?_)
          refine pres_bind (pres_updateLoopMergable _ _) (fun u4 => ?_)
          refine pres_bind (pres_deleteLabel _) (fun u5 => ?_)
          refine pres_bind pres_popBreakable (fun u6 => ?_)
          exact pres_ite (pres_alloc _) (pres_ite (pres_pure _) (pres_pure _))
        | none =>
          refine pres_bind (ihBlock _ _) (fun placeholder => ?_)
          refine pres_bind (pres_alloc _) (fun loopRef => ?_)
          refine pres_bind (pres_pure _) (fun u1 => ?_)
          refine pres_bind (pres_pushBreakable _) (fun u2 => ?_)
          refine pres_bind (ihBlock _ _) (fun bodyRef => ?_)
          refine pres_bind (pres_updateLoopBody _ _) (fun u3 => ?_)
          refine pres_bind (pres_getNode _) (fun bodyNode => ?_)
          refine pres_bind (pres_updateLoopMergable _ _) (fun u4 => ?_)
          refine pres_bind (pres_pure _) (fun u5 => ?_)
          refine pres_bind pres_popBreakable (fun u6 => ?_)
          exact pres_ite (pres_alloc _) (pres_ite (pres_pure _) (pres_pure _))
      | breakS label =>
        cases label with
        | some l =>
          refine pres_bind (pres_lookupLabel _) (fun tgt => ?_)
          cases tgt with
          | none => exact pres_throwC _
          | some toRef => exact pres_alloc _
        | none =>
          refine pres_bind pres_peekBreakable (fun tgt => ?_)
          cases tgt with
          | none => exact pres_throwC _
          | some toRef => exact pres_alloc _
      | continueS =>
        refine pres_bind pres_peekBreakable (fun tgt => ?_)
        cases tgt with
        | none => exact pres_throwC _
        | some toRef => exact pres_alloc _
      | exitS => exact pres_alloc _
      | functionDeclare => exact pres_throwC _
    · intro ss succ
      show PresM (lowerChainBody (flowCore n) ss succ)
      cases ss with
      | nil => exact pres_pure _
      | cons s rest =>
        refine pres_bind (ihChain _ _) (fun restRefs => ?_)
        exact pres_bind (ihStmt _ _) (fun r => pres_pure _)
    · intro ss succ
      show PresM (toBlockFlowNodeBody (flowCore n) ss succ)
      refine pres_bind (ihChain _ _) (fun refs => ?_)
      refine pres_bind (pres_allMergable _) (fun m => ?_)
      exact pres_alloc _
    · intro bs succ
      show PresM (lowerIfBranchesBody (flowCore n) bs succ)
      cases bs with
      | nil => exact pres_pure _
      | cons hd rest =>
        obtain ⟨c, body⟩ := hd
        refine pres_bind (ihBlock _ _) (fun r => ?_)
        exact pres_bind (ihIf _ _) (fun rest2 => pres_pure _)
    · intro bs l0
      show PresM (lowerSwitchBranchesBody (flowCore n) bs l0)
      cases bs with
      | nil => exact pres_pure _
      | cons hd rest =>
        obtain ⟨c, body⟩ := hd
        refine pres_bind (ihSwitch _ _) (fun restPL => ?_)
        refine pres_bind (ihBlock _ _) (fun l => ?_)
        exact pres_bind (ihBlock _ _) (fun nn => pres_pure _)

theorem flowCore_succ (n : Nat) :
    flowCore (n + 1) =
      { stmt := toFlowNodeBody (flowCore n)
        chain := lowerChainBody (flowCore n)
        blockFn := toBlockFlowNodeBody (flowCore n)
        ifBranches := lowerIfBranchesBody (flowCore n)
        switchBranches := lowerSwitchBranchesBody (flowCore n) } := rfl

theorem toBlockFlowNode_shape (fuel : Nat) (stmts : List Statement)
    (succ : Nat) (st : FState) (r : Nat) (st2 : FState)
    (h : toBlockFlowNode fuel stmts succ st = .ok (r, st2)) :
    ∃ refs m, st2.arena.get? r = some (.block refs succ m) ∧
      r + 1 = st2.arena.length := by
  cases fuel with
  | zero =>
    simp [toBlockFlowNode, flowCore, throwC] at h
  | succ n =>
    rw [toBlockFlowNode, flowCore_succ] at h
    simp only [toBlockFlowNodeBody, Bind.bind, StateT.bind] at h
    rcases hc : (flowCore n).chain stmts succ st with e | ⟨refs, st1⟩
    · rw [hc] at h; simp [Except.bind] at h
    · rw [hc] at h
      simp only [Except.bind, allMergable, alloc] at h
      cases h
      refine ⟨refs,
        refs.all (fun x => ((st1.arena.get? x).map FNData.mergableOf).getD false),
        ?_, ?_⟩
      · exact List.get?_concat_length _ _
      · simp

/-- C1: the claim says an Exit reached inside a called global function makes
the top-level exec resolve to the exit sentinel, with the caller frame
stopping.  The code refutes it: a directly executed Exit does yield the exit
signal, but when the Exit runs inside the global function `g` called from
`progExitViaCall`, the caller discards the signal returned by the callee run
(interpreter.ts Call case awaits `callByName` and ignores its result), keeps
stepping, and the invocation returns 42, not the exit sentinel. -/
theorem c1_exit_swallowed_across_frames :
    exOk (interpExec 40 [] [] [Statement.exitS] [] []) = some JSVal.exitSig ∧
    exOk (interpExec 40 [] [("g", [Statement.exitS])] progExitViaCall [] []) =
      some (JSVal.num 42) ∧
    exOk (interpExec 40 [] [("g", [Statement.exitS])] progExitViaCall [] []) ≠
      some JSVal.exitSig := by
  refine ⟨by decide, by decide, by decide⟩

/-- C2: the claim says a break Jump's `next` is the targeted loop's outer
successor.  The code refutes it: in both the labelled and the unlabelled
break programs the Jump node (ref 4) has `next = 3`, which is the Loop node
itself, while the loop's outer successor is ref 1 (`nextAt 3 = some 1`); only
the continue half of the claim holds (its Jump also targets the loop head,
which for continue is correct). -/
theorem c2_break_jump_targets_loop_head :
    (resLabelledBreak.isBreakJumpAt 4 = true ∧
     resLabelledBreak.nextAt 4 = some 3 ∧
     resLabelledBreak.kindAt 3 = some FNKind.loopK ∧
     resLabelledBreak.nextAt 3 = some 1 ∧
     resLabelledBreak.nextAt 4 ≠ some 1) ∧
    (resUnlabelledBreak.isBreakJumpAt 4 = true ∧
     resUnlabelledBreak.nextAt 4 = some 3 ∧
     resUnlabelledBreak.kindAt 3 = some FNKind.loopK ∧
     resUnlabelledBreak.nextAt 3 = some 1 ∧
     resUnlabelledBreak.nextAt 4 ≠ some 1) ∧
    (resContinue.isContinueJumpAt 4 = true ∧
     resContinue.nextAt 4 = some 3 ∧
     resContinue.kindAt 3 = some FNKind.loopK) := by
  refine ⟨by decide, by decide, by decide⟩

/-- C3: the claim says fused steps evaluate built-in call parameters
identically to non-fused steps, literals passing through unchanged.  The code
refutes it for string literals: the non-fused evaluator passes the string
through, while the code emitted by `emitJITCode` splices the literal into the
generated source without quotes (compile.ts line 278), so the string parses
as an identifier and evaluating it throws a ReferenceError.  Number literals
do round-trip identically. -/
theorem c3_jit_string_literal_param_diverges :
    evalParamsStep [("text", Value.lit (Literal.str "hello"))] s0 =
      (s0, [("text", JSVal.str "hello")]) ∧
    evalParamsJit [("text", Value.lit (Literal.str "hello"))] s0 =
      .error (.refErr "hello") ∧
    evalParamsJit [("n", Value.lit (Literal.num 5))] s0 =
      .ok (evalParamsStep [("n", Value.lit (Literal.num 5))] s0) := by
  refine ⟨by decide, by rfl, by rfl⟩

/-- C4: the claim says a matched switch branch's block has the switch's outer
successor as its successor, and branch bodies execute with control then
proceeding correctly.  The code refutes it: in `progSwitchMatchCall` the
Switch node (ref 6) has outer successor ref 1 (the `return 42` node), but its
single branch block (ref 5) has `next = 3`, an unlabelled duplicate produced
by the second lowering of the branch body, whose step id is -1; so after the
matched branch runs, the frame moves to -1 and returns undefined instead of
42.  The no-match path is correct: with no matching branch and no otherwise,
execution reaches the successor and returns 42. -/
theorem c4_switch_branch_successor_wrong :
    exOk (interpExec 40 [] [("g", [])] progSwitchMatchCall [] []) =
      some JSVal.undef ∧
    exOk (interpExec 40 [] [("g", [])] progSwitchNoMatch [] []) =
      some (JSVal.num 42) ∧
    resSwitchMatch.kindAt 6 = some FNKind.switchK ∧
    resSwitchMatch.nextAt 6 = some 1 ∧
    resSwitchMatch.branchNodesAt 6 = some [5] ∧
    resSwitchMatch.kindAt 5 = some FNKind.blockK ∧
    resSwitchMatch.nextAt 5 = some 3 ∧
    resSwitchMatch.idAt 3 = -1 := by
  refine ⟨by decide, by decide, by decide, by decide, by decide, by decide,
    by decide, by decide⟩

/-- C5: the claim says a loop with an omitted condition behaves as if the
condition were always true, the head moving to the body.  The code refutes
it: in the stepped compilation of `progBareLoopCall` the loop head is step 0;
the Loop node (ref 2) has body block ref 4 carrying step id 1, and its outer
successor ref 0 (the implicit return) carries step id 2; yet the head step
evaluates `statement.condition?.(scope)` to undefined, treats it as false,
and emits `Move 2` - straight to the loop's successor, never entering the
body. -/
theorem c5_absent_condition_treated_false :
    exOk (execNodeP pmBareLoop 0 9 s0) = some (s0, OP.move 2) ∧
    resBareLoop.kindAt 2 = some FNKind.loopK ∧
    resBareLoop.nextAt 2 = some 0 ∧
    resBareLoop.loopBodyAt 2 = some 4 ∧
    resBareLoop.idAt 4 = 1 ∧
    resBareLoop.idAt 0 = 2 := by
  refine ⟨by decide, by decide, by decide, by decide, by decide, by decide⟩

/-- C6: the claim says a loop `i := 0; i < N; i++` executes its body exactly
N times, and the spec's counting program returns 45.  The fused compilation
does return 45; but the code refutes the general claim in the stepped
compilation: `progCountingStepped` counts body executions of an `i < 3` loop
in `local.k` and returns 2, because the standalone loop-head step runs the
iterator before every condition check including the first (compile.ts Loop
case runs `statement.iterator?.(scope)` unconditionally), so `i` is already 1
at the first test and the body runs N - 1 times. -/
theorem c6_stepped_loop_runs_n_minus_one :
    exOk (interpExec 80 [] [] progCountingFused [] []) = some (JSVal.num 45) ∧
    exOk (interpExec 80 [] [("g", [])] progCountingStepped [] []) =
      some (JSVal.num 2) := by
  refine ⟨by decide, by decide⟩

/-- C7: when the stepper dispatches a Call opcode, the caller frame's program
counter is set to the opcode's next-node id in the same transition that
pushes the callee frame, whose own counter starts at 0; and every successful
non-final transition only replaces the top of the frame stack (the frames
below the dispatching one are untouched), so the callee runs with the caller
already parked at `n` and the caller's counter never still addresses the
ExternCall node while the callee is running. -/
theorem c7_call_advances_pc_before_callee
    (f : Nat) (glb : List (String × ProgramMap)) (env : VMap) (fr : Frame)
    (rest : List Frame) (s2 : Scope) (name : String)
    (params : List (String × JSVal)) (n : Int) (pm : ProgramMap)
    (hcur : ¬ fr.current < 0)
    (hstep : execNodeP fr.program fr.current f ⟨fr.args, fr.locals, env⟩ =
      .ok (s2, .callOp name params n))
    (hglob : List.lookup name glb = some pm) :
    machineStep f ⟨fr :: rest, env, glb⟩ =
      .ok (.inl ⟨mkFrame pm params ::
        { fr with current := n, locals := s2.locals, args := s2.args } :: rest,
        s2.env, glb⟩) ∧
    (mkFrame pm params).current = 0 ∧
    (∀ (f2 : Nat) (cfg : Config) (top : Frame) (rest2 : List Frame)
       (out : Config),
      cfg.stack = top :: rest2 → ¬ top.current < 0 →
      machineStep f2 cfg = .ok (.inl out) →
      ∃ ts, out.stack = ts ++ rest2) := by
  refine ⟨?_, rfl, ?_⟩
  · obtain ⟨a2, l2, e2⟩ := s2
    simp [machineStep, hcur, hstep, hglob]
  · intro f2 cfg top rest2 out hstk htop hms
    obtain ⟨stk, env2, gl2⟩ := cfg
    simp only at hstk
    subst hstk
    simp only [machineStep, htop, if_neg] at hms
    rcases hx : execNodeP top.program top.current f2 ⟨top.args, top.locals, env2⟩
        with e | ⟨s3, op⟩
    · rw [hx] at hms; simp at hms
    · rw [hx] at hms
      obtain ⟨a3, l3, e3⟩ := s3
      cases op with
      | move m =>
        simp at hms
        subst hms
        exact ⟨[_], rfl⟩
      | callOp nm ps m =>
        simp at hms
        rcases hg : List.lookup nm gl2 with _ | pm2
        · rw [hg] at hms; simp at hms
        · rw [hg] at hms; simp at hms
          subst hms
          exact ⟨[_, _], rfl⟩
      | retOp v =>
        simp at hms
        subst hms
        exact ⟨[_], rfl⟩
      | exitOp =>
        simp at hms
        subst hms
        exact ⟨[_], rfl⟩

/-- C7 witness: the caller program `c7pmMain` issues `Call("g", {}, 7)` from
step 0; one machine transition parks the caller at 7 and pushes the fresh
callee frame for `c7pmG` with counter 0. -/
theorem c7_call_advances_pc_before_callee_witness :
    machineStep 9 ⟨[c7fr], [], [("g", c7pmG)]⟩ =
      .ok (.inl ⟨mkFrame c7pmG [] ::
        { c7fr with current := 7, locals := [], args := [] } :: [],
        [], [("g", c7pmG)]⟩) ∧
    (mkFrame c7pmG []).current = 0 := by
  have h := c7_call_advances_pc_before_callee 9 [("g", c7pmG)] [] c7fr []
    ⟨[], [], []⟩ "g" [] 7 c7pmG (by decide) (by rfl) (by rfl)
  exact ⟨h.1, h.2.1⟩

/-- C8: flow analysis fails the whole compile on each of the claimed inputs,
at every sufficient fuel: a label declared again in an overlapping loop scope
(dupLabel), an unlabelled break or a continue with no enclosing loop, a
labelled break whose label is not in scope, and a statement of unknown kind
(FunctionDeclare falls to the default throw). -/
theorem c8_compile_time_failures :
    (∀ (f : Nat) (b : List Statement) (c : Option Expr),
       exErr (flowAnalyzePass (f + 9)
         [.loop false none c none (some "L")
           [.loop false none none none (some "L") b]]) =
         some (.dupLabel "L")) ∧
    (∀ f : Nat,
       exErr (flowAnalyzePass (f + 9) [.breakS none]) =
         some .unexceptedBreak) ∧
    (∀ f : Nat,
       exErr (flowAnalyzePass (f + 9) [.continueS]) =
         some .unexceptedContinue) ∧
    (∀ (f : Nat) (l : String),
       exErr (flowAnalyzePass (f + 9) [.breakS (some l)]) =
         some .undefLabel) ∧
    (∀ f : Nat,
       exErr (flowAnalyzePass (f + 9) [.functionDeclare]) =
         some .unknownStatement) := by
  exact ⟨fun _ _ _ => rfl, fun _ => rfl, fun _ => rfl, fun _ _ => rfl,
    fun _ => rfl⟩

/-- C9: flow analysis allocates the implicit Return node first (so its arena
reference, recorded as `implicitRef`, is 0), that cell still holds
`Return(undefined)` in every successful result, and the root block's node
list ends with the implicit return appended after the last statement; and
executing the empty program resolves to undefined, not the exit sentinel. -/
theorem c9_implicit_return_appended :
    (∀ (fuel : Nat) (prog : List Statement) (res : FlowResult),
       flowAnalyzePass fuel prog = .ok res →
       res.implicitRef = 0 ∧
       res.arena.get? res.implicitRef = some (.retN (.ret none) true) ∧
       ∃ ns, res.nodesAt res.root = some ns ∧
         ns.getLast? = some res.implicitRef) ∧
    exOk (interpExec 9 [] [] [] [] []) = some JSVal.undef := by
  constructor
  · intro fuel prog res h
    unfold flowAnalyzePass at h
    rcases hrun : (buildFlow fuel prog).run
        { arena := [], labelMap := [], breakableNodeStack := [] }
      with e | ⟨irRoot, s⟩
    · rw [hrun] at h; simp [Bind.bind, Except.bind] at h
    · rw [hrun] at h
      simp only [Bind.bind, Except.bind] at h
      rcases hlab : (labeling fuel s.arena irRoot.2).run
          { assign := [], count := 0 } with e2 | ⟨u, lab⟩
      · rw [hlab] at h; simp at h
      · rw [hlab] at h
        simp only [pure, Except.pure] at h
        cases h
        rw [buildFlow] at hrun
        simp only [StateT.run, Bind.bind, StateT.bind, alloc, List.nil_append,
          List.length_nil, Except.bind] at hrun
        rcases htb : toBlockFlowNode fuel prog 0
            { arena := [.retN (.ret none) true], labelMap := [],
              breakableNodeStack := [] } with e3 | ⟨root, st2⟩
        · rw [htb] at hrun; simp at hrun
        · rw [htb] at hrun
          simp only [pushBlockChild, pure, Except.pure] at hrun
          cases hrun
          have h0 : Ret0 st2 :=
            (flowCore_pres fuel).2.2.1 prog 0
              { arena := [.retN (.ret none) true], labelMap := [],
                breakableNodeStack := [] } root st2 (by rfl) htb
          obtain ⟨refs, m, hblk, hlen⟩ :=
            toBlockFlowNode_shape fuel prog 0 _ root st2 htb
          refine ⟨rfl, ?_, ?_⟩
          · exact arenaModify_ret0 _ _ _ rfl h0
          · refine ⟨refs ++ [0], ?_, ?_⟩
            · show FlowResult.nodesAt _ root = _
              unfold FlowResult.nodesAt
              simp only []
              unfold arenaModify
              rw [hblk]
              rw [List.get?_set_eq_of_lt _ (by omega)]
              rfl
            · exact List.getLast?_concat _
  · decide

/-- C9 witness: the flow analysis of the empty program at fuel 9 succeeds,
its implicit return sits at reference 0, and the root block's node list ends
with it. -/
theorem c9_implicit_return_appended_witness :
    resEmpty.implicitRef = 0 ∧
    resEmpty.arena.get? resEmpty.implicitRef =
      some (.retN (.ret none) true) ∧
    ∃ ns, resEmpty.nodesAt resEmpty.root = some ns ∧
      ns.getLast? = some resEmpty.implicitRef :=
  (c9_implicit_return_appended).1 9 [] resEmpty (by rfl)

/-- C10: the labelling walk reads the id of a block's first contained node,
which does not exist for an empty block, so compilation fails with the
empty-block error on every program placing an empty statement list as an If
branch body, a Switch branch body, an otherwise block, or a loop body, at
every sufficient fuel - even though none of the compile-time errors of C8 is
present; only the root block is protected, by the appended implicit return,
so the empty program itself compiles. -/
theorem c10_empty_inner_block_fails :
    (∀ (f : Nat) (c : Expr),
       exErr (flowAnalyzePass (f + 9) [.ifS [(c, [])] none]) =
         some .emptyBlockLabeling) ∧
    (∀ (f : Nat) (p c : Expr),
       exErr (flowAnalyzePass (f + 9) [.switchS p [(c, [])] none]) =
         some .emptyBlockLabeling) ∧
    (∀ (f : Nat) (c e : Expr),
       exErr (flowAnalyzePass (f + 9)
         [.ifS [(c, [.expression e false])] (some [])]) =
         some .emptyBlockLabeling) ∧
    (∀ f : Nat,
       exErr (flowAnalyzePass (f + 9) [.loop false none none none none []]) =
         some .emptyBlockLabeling) ∧
    (flowAnalyzePass 9 []).toOption.isSome = true := by
  exact ⟨fun _ _ => rfl, fun _ _ _ => rfl, fun _ _ _ => rfl, fun _ => rfl, rfl⟩
